import Mathlib

/-!
Shallow embedding of the logosaurus logging crate (src/src/lib.rs) and the
pieces of the `log` facade crate it builds on, together with proofs about the
level gate, the flag-driven header formatter, and the write path.
-/

namespace Logosaurus

/-- Embeds `log::Level` (log crate): `pub enum Level { Error = 1, Warn, Info, Debug, Trace }`. -/
inductive Level where
  | Error
  | Warn
  | Info
  | Debug
  | Trace
deriving DecidableEq, Repr

/-- Embeds `log::LevelFilter` (log crate): `pub enum LevelFilter { Off, Error, Warn, Info, Debug, Trace }`. -/
inductive LevelFilter where
  | Off
  | Error
  | Warn
  | Info
  | Debug
  | Trace
deriving DecidableEq, Repr

/-- The discriminant of `log::Level` (`Error = 1`, ..., `Trace = 5`), used by the
log crate's `PartialOrd` impls, which compare `*self as usize`. -/
def Level.toUsize : Level → Nat
  | .Error => 1
  | .Warn => 2
  | .Info => 3
  | .Debug => 4
  | .Trace => 5

/-- The discriminant of `log::LevelFilter` (`Off = 0`, ..., `Trace = 5`). -/
def LevelFilter.toUsize : LevelFilter → Nat
  | .Off => 0
  | .Error => 1
  | .Warn => 2
  | .Info => 3
  | .Debug => 4
  | .Trace => 5

/-- Embeds the log crate's `impl PartialOrd<LevelFilter> for Level`:
`(*self as usize).cmp(&(*other as usize))`, specialised to `<=`. -/
def levelLeFilter (l : Level) (f : LevelFilter) : Bool :=
  decide (l.toUsize ≤ f.toUsize)

/-- Embeds the `Display` impl of `log::Level`: the capitalized level name. -/
def Level.name : Level → String
  | .Error => "ERROR"
  | .Warn => "WARN"
  | .Info => "INFO"
  | .Debug => "DEBUG"
  | .Trace => "TRACE"

/-- `pub type Flag = u8;` — flag values stay below 256, bitwise ops on `Nat` agree. -/
abbrev Flag := Nat

def L_NONE : Flag := 0
def L_DATE : Flag := 1
def L_TIME : Flag := 2
def L_MICROSECONDS : Flag := 4
def L_LONG_FILE : Flag := 8
def L_SHORT_FILE : Flag := 16
def L_UTC : Flag := 32
/-- Embeds the source constant `L_MSG_PREFIX = 64` (renamed here). -/
def L_MSG_PFX : Flag := 64
def L_LEVEL : Flag := 128
def L_STD : Flag := L_DATE ||| L_TIME ||| L_LEVEL

/-- One timezone view of a `chrono::DateTime`: the calendar/clock fields the
formatter reads (`%Y/%m/%d`, `%H:%M:%S`, `nanosecond()`). -/
structure DateTime where
  year : Nat
  month : Nat
  day : Nat
  hour : Nat
  minute : Nat
  second : Nat
  nanosecond : Nat
deriving DecidableEq, Repr

/-- A captured instant together with its two timezone renderings: the local view
and the result of `now.with_timezone(&chrono::Utc)`. -/
structure Timestamp where
  localDT : DateTime
  utcDT : DateTime
deriving DecidableEq, Repr

/-- Append `c` on the right up to total width `w` — Rust's fill-and-align
format `{:c<w}` (left-aligned, so padding goes on the right). -/
def padRightWith (c : Char) (w : Nat) (s : String) : String :=
  s ++ String.mk (List.replicate (w - s.length) c)

/-- chrono zero-padded two-digit field (`%m`, `%d`, `%H`, `%M`, `%S`). -/
def padZeros2 (n : Nat) : String :=
  if n < 10 then "0" ++ Nat.repr n else Nat.repr n

/-- chrono zero-padded four-digit year (`%Y`). -/
def padZeros4 (n : Nat) : String :=
  if n < 10 then "000" ++ Nat.repr n
  else if n < 100 then "00" ++ Nat.repr n
  else if n < 1000 then "0" ++ Nat.repr n
  else Nat.repr n

/-- Split a character list on `/`. Helper for `file_name`. -/
def splitOnSlash : List Char → List (List Char)
  | [] => [[]]
  | c :: cs =>
    let r := splitOnSlash cs
    if c = '/' then [] :: r
    else
      match r with
      | [] => [[c]]
      | h :: t => (c :: h) :: t

/-- Embeds `std::path::Path::new(file).file_name()` on Unix paths: the last
normal component of the path (empty components and `.` are skipped); `none`
for an empty path, a root path, or a path whose last component is `..`. -/
def file_name (p : String) : Option String :=
  let comps := (splitOnSlash p.data).filter (fun c => ¬(c = [] ∨ c = ['.']))
  match comps.getLast? with
  | some last => if last = ['.', '.'] then none else some (String.mk last)
  | none => none

/-- The embedded `Logger` state: the fields `header`/`enabled`/`write_output`
read (`level`, `flag`, `prefix`; the field `prefix` is named `pfx` here).
The destination `out` and the guard `mu` are modelled separately. -/
structure Logger where
  level : LevelFilter
  flag : Flag
  pfx : String
deriving DecidableEq, Repr

/-- Embeds `Logger::enabled`: `incoming_level <= self.level()`. -/
def Logger.enabled (lg : Logger) (incoming_level : Level) : Bool :=
  levelLeFilter incoming_level lg.level

/-- Embeds `Logger::format_datetime`: `%Y/%m/%d ` when `L_DATE` is set; when
`L_TIME` or `L_MICROSECONDS` is set, `%H:%M:%S`, then — when `L_MICROSECONDS`
is set — `format!(".{:0<wid$}", micro, wid = 6)` with
`micro = now.nanosecond() / 1000` (fill `0`, left-aligned: zeros go on the
right), then a trailing space. -/
def format_datetime (flag : Flag) (now : DateTime) : String :=
  (if flag &&& L_DATE ≠ 0 then
    padZeros4 now.year ++ "/" ++ padZeros2 now.month ++ "/" ++ padZeros2 now.day ++ " "
  else "")
  ++ (if flag &&& (L_TIME ||| L_MICROSECONDS) ≠ 0 then
    padZeros2 now.hour ++ ":" ++ padZeros2 now.minute ++ ":" ++ padZeros2 now.second
    ++ (if flag &&& L_MICROSECONDS ≠ 0 then
        "." ++ padRightWith '0' 6 (Nat.repr (now.nanosecond / 1000))
      else "")
    ++ " "
  else "")

/-- Embeds `Logger::header`: the same sequence of `push_str` calls, written as
one concatenation. `format!("{: <5} ", level)` is the level name left-aligned
(space-padded on the right) to width 5, then a space. -/
def Logger.header (lg : Logger) (target : String) (file : String) (line : Nat)
    (level : Level) (now : Timestamp) : String :=
  (if lg.flag &&& L_MSG_PFX = 0 then lg.pfx else "")
  ++ (if lg.flag &&& L_LEVEL ≠ 0 then padRightWith ' ' 5 level.name ++ " " else "")
  ++ (if lg.flag &&& (L_DATE ||| L_TIME ||| L_MICROSECONDS) ≠ 0 then
    (if lg.flag &&& L_UTC ≠ 0 then format_datetime lg.flag now.utcDT
     else format_datetime lg.flag now.localDT)
  else "")
  ++ (if lg.flag &&& (L_LONG_FILE ||| L_SHORT_FILE) ≠ 0 then
    (if lg.flag &&& L_LONG_FILE ≠ 0 then target ++ " " else "")
    ++ (if lg.flag &&& L_SHORT_FILE ≠ 0 then
        match file_name file with
        | some base => base
        | none => "???"
      else file)
    ++ ":" ++ Nat.repr line ++ ": "
  else "")
  ++ (if lg.flag &&& L_MSG_PFX ≠ 0 then lg.pfx else "")

/-- Embeds `s.ends_with("\n")` (the pattern is the single newline character). -/
def ends_with_newline (s : String) : Bool :=
  match s.data.getLast? with
  | some c => c = '\n'
  | none => false

/-- Embeds `Logger::write_output`: `none` when the gate rejects the level
(nothing is written); otherwise `some` of the exact byte string passed to the
single `write!` call (`header ++ s ++ maybe_newline`), with `file` defaulting
to `"???"` and `line` to `0`. -/
def Logger.write_output (lg : Logger) (level : Level) (target : String)
    (file : Option String) (line : Option Nat) (s : String) (now : Timestamp) :
    Option String :=
  if lg.enabled level = false then none
  else
    let file := match file with
      | some f => f
      | none => "???"
    let line := match line with
      | some n => n
      | none => 0
    let h := lg.header target file line level now
    let maybe_newline := if ends_with_newline s then "" else "\n"
    some (h ++ s ++ maybe_newline)

/-- A fixed sample instant: 2020/10/02 17:05:23, nanosecond 23123000
(so `micro = 23123`). -/
def dt0 : DateTime := ⟨2020, 10, 2, 17, 5, 23, 23123000⟩

/-- Sample timestamp whose local and UTC views coincide. -/
def ts0 : Timestamp := ⟨dt0, dt0⟩

/-- Fixture: flags `L_NONE`, empty prefix, threshold `Trace`. -/
def lgPlain : Logger := ⟨.Trace, L_NONE, ""⟩

/-- Fixture: flags `L_NONE`, prefix `"myprogram: "`, threshold `Trace`. -/
def lgPfx : Logger := ⟨.Trace, L_NONE, "myprogram: "⟩

/-- Fixture: flags `L_SHORT_FILE`, empty prefix, threshold `Trace`. -/
def lgShort : Logger := ⟨.Trace, L_SHORT_FILE, ""⟩

/-- Fixture: flags `L_LEVEL`, empty prefix, threshold `Trace`. -/
def lgLevelOnly : Logger := ⟨.Trace, L_LEVEL, ""⟩

/-- Fixture: flags `L_MICROSECONDS`, empty prefix, threshold `Trace`. -/
def lgMicro : Logger := ⟨.Trace, L_MICROSECONDS, ""⟩

/-- Fixture: the default flags `L_STD` (`L_DATE ||| L_TIME ||| L_LEVEL`),
empty prefix, threshold `Trace`. -/
def lgStd : Logger := ⟨.Trace, L_STD, ""⟩

/-- Fixture: flags `L_STD ||| L_SHORT_FILE` (the crate's doc example),
empty prefix, threshold `Trace`. -/
def lgStdShort : Logger := ⟨.Trace, L_STD ||| L_SHORT_FILE, ""⟩

/-- Fixture: threshold `LevelFilter::Off`, standard flags. -/
def lgOff : Logger := ⟨.Off, L_STD, ""⟩

/-- Embeds the error-propagation shape of `Logger::write_output`: when the gate
passes, the single `write!` call's `io::Result` is discarded
(`let _ = write!(out, ...)`), so no destination failure reaches the caller.
`dest` is the destination's write behaviour on the emitted bytes. -/
def write_output_result (lg : Logger) (dest : String → Except String Unit)
    (level : Level) (target : String) (file : Option String) (line : Option Nat)
    (s : String) (now : Timestamp) : Except String Unit :=
  match lg.write_output level target file line s now with
  | none => .ok ()
  | some bytes =>
    match dest bytes with
    | .ok _ => .ok ()
    | .error _ => .ok ()

/-- Embeds `Logger::flush`: `let _ = self.out().lock().unwrap().flush();` — the
destination's flush result is discarded. -/
def flush_result (destFlush : Except String Unit) : Except String Unit :=
  match destFlush with
  | .ok _ => .ok ()
  | .error _ => .ok ()

/-- Modelled from the spec: `log::set_boxed_logger` (log crate, outside this
repository) fails iff a global logger was already installed; `init` forwards
that `Result` to its caller unchanged. -/
def init_result (alreadyRegistered : Bool) : Except String Unit :=
  if alreadyRegistered then .error "SetLoggerError" else .ok ()

/-! ### Concurrency model for the guarded write path

`write_output` acquires the destination mutex (`out.lock()`) and, while
holding it, performs one `write!` call with the whole formatted line; the lock
is then released. The interleaving model below has one step per such action:
`acquire` (a thread takes the free lock and formats its next message),
`write` (the holder appends its whole chunk to the destination byte stream in
one step — faithful because the source makes a single `write!` call under the
lock), and `release`. -/

/-- The bytes `write_output` hands to `write!` for message `m` (empty when the
gate rejects, in which case nothing is written). -/
def emitLine (lg : Logger) (level : Level) (target : String)
    (file : Option String) (line : Option Nat) (now : Timestamp)
    (m : String) : String :=
  (lg.write_output level target file line m now).getD ""

/-- State of the interleaving model: per-thread remaining messages, the mutex
holder (with its formatted chunk while the write is still pending), and the
destination's received byte stream. -/
structure Sys where
  threads : List (List String)
  holder : Option (Nat × Option String)
  out : String
deriving Repr

/-- One interleaving step of concurrent `write_output` calls sharing a logger:
`emit` maps a message to the chunk the holder writes. -/
inductive Step (emit : String → String) : Sys → Sys → Prop
  | acquire (s : Sys) (t : Nat) (msg : String) (rest : List String) :
      s.holder = none → s.threads[t]? = some (msg :: rest) →
      Step emit s ⟨s.threads.set t rest, some (t, some (emit msg)), s.out⟩
  | write (s : Sys) (t : Nat) (chunk : String) :
      s.holder = some (t, some chunk) →
      Step emit s ⟨s.threads, some (t, none), s.out ++ chunk⟩
  | release (s : Sys) (t : Nat) :
      s.holder = some (t, none) →
      Step emit s ⟨s.threads, none, s.out⟩

/-- The chunk held by the lock owner but not yet written, as a list. -/
def pendingChunks : Option (Nat × Option String) → List String
  | some (_, some chunk) => [chunk]
  | _ => []

/-- Invariant of the interleaving model: the destination stream is the
concatenation of a list of complete chunks which, together with the pending
chunk and the chunks still to come, is a permutation of all chunks. -/
def SysInv (emit : String → String) (allChunks : List String) (s : Sys) : Prop :=
  ∃ w : List String, s.out = String.join w ∧
    (w ++ pendingChunks s.holder ++ (s.threads.flatten.map emit)).Perm allChunks

example : lgShort.header "t" "src/file.rs" 3 .Info ts0 = "file.rs:3: " := by decide
example : lgShort.header "t" "main.rs" 3 .Info ts0 = "main.rs:3: " := by decide
example : lgLevelOnly.header "t" "f" 0 .Warn ts0 = "WARN  " := by decide
example : lgPfx.header "t" "f" 1 .Info ts0 = "myprogram: " := by decide
example : lgMicro.header "t" "f" 0 .Info ts0 = "17:05:23.231230 " := by decide
example : lgPlain.write_output .Info "t" none none "m" ts0 = some "m\n" := by decide
example : lgShort.write_output .Info "t" none none "m" ts0 = some "???:0: m\n" := by decide
example : lgOff.write_output .Error "t" none none "m" ts0 = none := by decide

/-! ### Helper lemmas -/

theorem splitOnSlash_no_sep (l : List Char) (h : ∀ c ∈ l, c ≠ '/') :
    splitOnSlash l = [l] := by
  induction l with
  | nil => rfl
  | cons c cs ih =>
    have hc : c ≠ '/' := h c (List.mem_cons_self c cs)
    have hcs : splitOnSlash cs = [cs] := ih fun x hx => h x (List.mem_cons_of_mem c hx)
    simp [splitOnSlash, hc, hcs]

theorem join_concat (w : List String) (x : String) :
    String.join (w ++ [x]) = String.join w ++ x := by
  simp [String.join, List.foldl_append]

theorem flatten_set_perm {α : Type} (ts : List (List α)) (t : Nat) (m : α)
    (rest : List α) (h : ts[t]? = some (m :: rest)) :
    (m :: (ts.set t rest).flatten).Perm ts.flatten := by
  induction ts generalizing t with
  | nil => simp at h
  | cons hd tl ih =>
    cases t with
    | zero =>
      simp at h
      subst h
      simp
    | succ t =>
      simp at h
      have ihp := ih t h
      simp only [List.set_cons_succ, List.flatten_cons]
      exact List.Perm.trans List.perm_middle.symm (List.Perm.append_left hd ihp)

theorem header_short_file (lg : Logger) (target file : String) (line : Nat)
    (level : Level) (now : Timestamp) (hf : lg.flag = L_SHORT_FILE) :
    lg.header target file line level now
      = lg.pfx ++ ((match file_name file with | some base => base | none => "???")
          ++ (":" ++ (Nat.repr line ++ ": "))) := by
  have t1 : ((16 : Nat) &&& 64 = 0) = True := eq_true (by decide)
  have t2 : ((16 : Nat) &&& 128 = 0) = True := eq_true (by decide)
  have t3 : ((16 : Nat) &&& 7 = 0) = True := eq_true (by decide)
  have t4 : ((16 : Nat) &&& 24 = 0) = False := eq_false (by decide)
  have t5 : ((16 : Nat) &&& 8 = 0) = True := eq_true (by decide)
  have t6 : ((16 : Nat) &&& 16 = 0) = False := eq_false (by decide)
  simp [Logger.header, hf, L_MSG_PFX, L_LEVEL, L_DATE, L_TIME, L_MICROSECONDS,
    L_LONG_FILE, L_SHORT_FILE, L_UTC, t1, t2, t3, t4, t5, t6, String.append_assoc]

/-! ### Claims -/

/-- C1: `enabled(l)` is true iff `l <= t` in the log-facade ordering (ordinal
comparison with Error = 1 the most severe, Trace = 5 the least severe);
`write_output` emits iff `enabled`; the gate is monotone: if a less severe
(higher-ordinal) level passes, every more severe (lower-ordinal) level
passes. -/
theorem c1_level_gate (lg : Logger) (l : Level) :
    (lg.enabled l = true ↔ l.toUsize ≤ lg.level.toUsize)
    ∧ (∀ target file line s now,
        (lg.write_output l target file line s now).isSome = lg.enabled l)
    ∧ (∀ l₁ l₂ : Level, l₁.toUsize ≤ l₂.toUsize → lg.enabled l₂ = true →
        lg.enabled l₁ = true)
    ∧ Level.Error.toUsize = 1 ∧ Level.Trace.toUsize = 5
    ∧ (∀ l' : Level, Level.Error.toUsize ≤ l'.toUsize ∧ l'.toUsize ≤ Level.Trace.toUsize) := by
  refine ⟨?_, ?_, ?_, rfl, rfl, ?_⟩
  · simp [Logger.enabled, levelLeFilter]
  · intro target file line s now
    cases h : lg.enabled l <;> simp [Logger.write_output, h]
  · intro l₁ l₂ h12 h2
    simp only [Logger.enabled, levelLeFilter, decide_eq_true_eq] at h2 ⊢
    exact le_trans h12 h2
  · intro l'
    cases l' <;> simp [Level.toUsize]

/-- Witness for C1 at a concrete input: `Warn` is more severe than `Info`, so
since `Info` passes the default `Trace` threshold, `Warn` does too. -/
theorem c1_level_gate_witness : lgPlain.enabled .Warn = true :=
  (c1_level_gate lgPlain .Info).2.2.1 .Warn .Info (by decide) (by decide)

/-- C2 counterexample: with flags = 0 but a nonempty configured prefix, the
header is the prefix, not the empty string (the prefix is emitted whenever
`L_MSG_PREFIX` is unset, including at flags = 0). -/
theorem c2_counterexample :
    lgPfx.flag = 0
    ∧ lgPfx.header "t" "f" 1 .Info ts0 = "myprogram: "
    ∧ lgPfx.header "t" "f" 1 .Info ts0 ≠ "" := by
  refine ⟨rfl, by decide, by decide⟩

/-- C2 amended: when the flag bitmask is 0 the header equals the configured
prefix (hence it is empty exactly when the prefix is empty), and the emitted
bytes are prefix ++ message (++ the conditional newline). -/
theorem c2_flags_none (lg : Logger) (target file : String) (line : Nat)
    (level : Level) (now : Timestamp) (s : String)
    (hf : lg.flag = 0) (he : lg.enabled level = true) :
    lg.header target file line level now = lg.pfx
    ∧ lg.write_output level target (some file) (some line) s now
        = some (lg.pfx ++ s ++ (if ends_with_newline s then "" else "\n")) := by
  have hh : lg.header target file line level now = lg.pfx := by
    simp [Logger.header, hf, L_MSG_PFX, L_LEVEL, L_DATE, L_TIME, L_MICROSECONDS,
      L_LONG_FILE, L_SHORT_FILE]
  refine ⟨hh, ?_⟩
  simp [Logger.write_output, he, hh]

/-- Witness for C2 amended, at flags = 0 with prefix `"myprogram: "`. -/
theorem c2_flags_none_witness :
    lgPfx.header "t" "f" 1 .Info ts0 = lgPfx.pfx
    ∧ lgPfx.write_output .Info "t" (some "f") (some 1) "m" ts0
        = some (lgPfx.pfx ++ "m" ++ (if ends_with_newline "m" then "" else "\n")) :=
  c2_flags_none lgPfx "t" "f" 1 .Info ts0 "m" rfl (by decide)

/-- C3 counterexample: with `L_SHORT_FILE` set and `file = None`, the file
segment is not omitted — the placeholder `???` and line `0` are emitted, so
the output is `???:0: m\n` rather than the bare `m\n`. -/
theorem c3_counterexample :
    lgShort.write_output .Info "t" none none "m" ts0 = some "???:0: m\n"
    ∧ lgShort.write_output .Info "t" none none "m" ts0 ≠ some "m\n" := by
  refine ⟨by decide, by decide⟩

/-- C3 amended: an absent file degrades to the placeholder `"???"` and an
absent line to `0` (the segment is still emitted when a file flag is set); in
particular with flags = `L_SHORT_FILE` the header is `prefix ++ "???:0: "`. -/
theorem c3_file_none_placeholder (lg : Logger) (level : Level) (target s : String)
    (line : Option Nat) (now : Timestamp) :
    lg.write_output level target none line s now
      = lg.write_output level target (some "???") (some (line.getD 0)) s now
    ∧ (lg.flag = L_SHORT_FILE →
        lg.header target "???" 0 level now = lg.pfx ++ "???:0: ") := by
  constructor
  · cases line <;> simp [Logger.write_output]
  · intro hf
    rw [header_short_file lg target "???" 0 level now hf]
    have hseg : ((match file_name "???" with | some base => base | none => "???")
        ++ (":" ++ (Nat.repr 0 ++ ": ")) : String) = "???:0: " := by decide
    rw [hseg]

/-- Witness for C3 amended at a concrete record with `file = None`,
`line = None`. -/
theorem c3_file_none_placeholder_witness :
    lgShort.write_output .Info "t" none none "m" ts0
      = lgShort.write_output .Info "t" (some "???") (some ((none : Option Nat).getD 0)) "m" ts0
    ∧ lgShort.header "t" "???" 0 .Info ts0 = lgShort.pfx ++ "???:0: " := by
  have h := c3_file_none_placeholder lgShort .Info "t" "m" none ts0
  exact ⟨h.1, h.2 rfl⟩

/-- C4 counterexample: the level name is left-aligned (padded on the right) to
width 5, not left-padded: with flags = `L_LEVEL` the header for `Warn` is
`"WARN  "` (name, one pad space, one separator space), not `" WARN "`. -/
theorem c4_counterexample :
    lgLevelOnly.header "t" "f" 0 .Warn ts0 = "WARN  "
    ∧ lgLevelOnly.header "t" "f" 0 .Warn ts0 ≠ " WARN " := by
  refine ⟨by decide, by decide⟩

/-- C4 amended: whenever the `L_LEVEL` bit is set (regardless of the other
flag bits), the header is the optional leading prefix followed immediately by
the level's canonical uppercase name padded on the right with spaces to total
width exactly 5, followed by one space, followed by the remaining header
segments. -/
theorem c4_level_right_padded (lg : Logger) (level : Level)
    (target file : String) (line : Nat) (now : Timestamp)
    (hf : lg.flag &&& L_LEVEL ≠ 0) :
    (∃ post : String,
      lg.header target file line level now
        = (if lg.flag &&& L_MSG_PFX = 0 then lg.pfx else "")
          ++ (padRightWith ' ' 5 level.name ++ " ") ++ post)
    ∧ (padRightWith ' ' 5 level.name).length = 5
    ∧ level.name ∈ ["TRACE", "DEBUG", "INFO", "WARN", "ERROR"] := by
  refine ⟨?_, ?_, ?_⟩
  · refine ⟨(if lg.flag &&& (L_DATE ||| L_TIME ||| L_MICROSECONDS) ≠ 0 then
        (if lg.flag &&& L_UTC ≠ 0 then format_datetime lg.flag now.utcDT
         else format_datetime lg.flag now.localDT)
      else "")
      ++ ((if lg.flag &&& (L_LONG_FILE ||| L_SHORT_FILE) ≠ 0 then
        (if lg.flag &&& L_LONG_FILE ≠ 0 then target ++ " " else "")
        ++ (if lg.flag &&& L_SHORT_FILE ≠ 0 then
            match file_name file with
            | some base => base
            | none => "???"
          else file)
        ++ ":" ++ Nat.repr line ++ ": "
      else "")
      ++ (if lg.flag &&& L_MSG_PFX ≠ 0 then lg.pfx else "")), ?_⟩
    simp only [Logger.header]
    rw [if_pos hf]
    simp [String.append_assoc]
  · cases level <;> decide
  · cases level <;> simp [Level.name]

/-- Witness for C4 amended at `Warn` with the default flags `L_STD`
(the `L_LEVEL` bit set alongside `L_DATE` and `L_TIME`). -/
theorem c4_level_right_padded_witness :
    (∃ post : String,
      lgStd.header "t" "f" 0 .Warn ts0
        = (if lgStd.flag &&& L_MSG_PFX = 0 then lgStd.pfx else "")
          ++ (padRightWith ' ' 5 Level.Warn.name ++ " ") ++ post)
    ∧ (padRightWith ' ' 5 Level.Warn.name).length = 5
    ∧ Level.Warn.name ∈ ["TRACE", "DEBUG", "INFO", "WARN", "ERROR"] :=
  c4_level_right_padded lgStd .Warn "t" "f" 0 ts0 (by decide)

/-- C5: when the gate passes, the written bytes are
`header ++ message ++ conditional-newline`: exactly one `"\n"` is appended
when the message does not end in one, and nothing is appended when it already
ends in one. -/
theorem c5_trailing_newline (lg : Logger) (level : Level) (target : String)
    (file : Option String) (line : Option Nat) (s : String) (now : Timestamp)
    (he : lg.enabled level = true) :
    (ends_with_newline s = false →
      lg.write_output level target file line s now
        = some (lg.header target (file.getD "???") (line.getD 0) level now ++ s ++ "\n"))
    ∧ (ends_with_newline s = true →
      lg.write_output level target file line s now
        = some (lg.header target (file.getD "???") (line.getD 0) level now ++ s)) := by
  constructor
  · intro hn
    cases file <;> cases line <;> simp [Logger.write_output, he, hn]
  · intro hn
    cases file <;> cases line <;> simp [Logger.write_output, he, hn]

/-- Witness for C5: a message without a trailing newline gains exactly one. -/
theorem c5_trailing_newline_witness :
    lgPlain.write_output .Info "t" none none "m" ts0
      = some (lgPlain.header "t" ((none : Option String).getD "???")
          ((none : Option Nat).getD 0) .Info ts0 ++ "m" ++ "\n") :=
  (c5_trailing_newline lgPlain .Info "t" none none "m" ts0 (by decide)).1 (by decide)

/-- C6 (code bug): `format!(".{:0<wid$}", micro, wid = 6)` pads the
microseconds with zeros on the RIGHT (fill `0`, left-align), so
`micro = 23123` prints as `.231230`, not the zero-padded-to-6-digits
`.023123` shown in the crate's own doc comment (`17:05:23.023123`). -/
theorem c6_micro_padding_bug :
    dt0.nanosecond / 1000 = 23123
    ∧ format_datetime L_MICROSECONDS dt0 = "17:05:23.231230 "
    ∧ format_datetime L_MICROSECONDS dt0 ≠ "17:05:23.023123 " := by
  refine ⟨rfl, by decide, by decide⟩

/-- C7 counterexample: with `L_SHORT_FILE`, a path with no separator is
emitted unchanged (`Path::file_name` returns the whole path), not replaced by
`???` as the claim states. -/
theorem c7_counterexample :
    lgShort.header "t" "main.rs" 3 .Info ts0 = "main.rs:3: "
    ∧ lgShort.header "t" "main.rs" 3 .Info ts0 ≠ "???:3: " := by
  refine ⟨by decide, by decide⟩

/-- C7 amended: whenever the `L_SHORT_FILE` bit is set (regardless of the
other flag bits), the file token emitted in the header is the final path
component when basename extraction succeeds and the placeholder `???` only
when it fails; a nonempty separator-free path (other than `.` and `..`) is
its own final component and is emitted unchanged. -/
theorem c7_short_file (lg : Logger) (target file : String) (line : Nat)
    (level : Level) (now : Timestamp) (hf : lg.flag &&& L_SHORT_FILE ≠ 0) :
    (∃ pre : String,
      lg.header target file line level now
        = pre
          ++ ((if lg.flag &&& L_LONG_FILE ≠ 0 then target ++ " " else "")
            ++ ((match file_name file with | some base => base | none => "???")
              ++ (":" ++ (Nat.repr line ++ ": "))))
          ++ (if lg.flag &&& L_MSG_PFX ≠ 0 then lg.pfx else ""))
    ∧ (file.data ≠ [] → (∀ c ∈ file.data, c ≠ '/') → file ≠ "." → file ≠ ".." →
        file_name file = some file) := by
  have hmk : String.mk file.data = file := by cases file; rfl
  have h24 : lg.flag &&& (L_LONG_FILE ||| L_SHORT_FILE) ≠ 0 := by
    simp only [L_LONG_FILE, L_SHORT_FILE] at hf ⊢
    intro h0
    apply hf
    calc lg.flag &&& 16
        = lg.flag &&& (((8 : Nat) ||| 16) &&& 16) := by
          rw [(by decide : ((8 : Nat) ||| 16) &&& 16 = 16)]
      _ = (lg.flag &&& ((8 : Nat) ||| 16)) &&& 16 := by rw [Nat.and_assoc]
      _ = 0 &&& 16 := by rw [h0]
      _ = 0 := by decide
  constructor
  · refine ⟨(if lg.flag &&& L_MSG_PFX = 0 then lg.pfx else "")
      ++ ((if lg.flag &&& L_LEVEL ≠ 0 then padRightWith ' ' 5 level.name ++ " " else "")
      ++ (if lg.flag &&& (L_DATE ||| L_TIME ||| L_MICROSECONDS) ≠ 0 then
        (if lg.flag &&& L_UTC ≠ 0 then format_datetime lg.flag now.utcDT
         else format_datetime lg.flag now.localDT)
      else "")), ?_⟩
    simp only [Logger.header]
    rw [if_pos h24, if_pos hf]
    simp [String.append_assoc]
  · intro hne hsep hdot hdots
    have hsplit := splitOnSlash_no_sep file.data hsep
    have hd1 : file.data ≠ ['.'] := by
      intro hcontra
      exact hdot (by rw [← hmk, hcontra])
    have hd2 : file.data ≠ ['.', '.'] := by
      intro hcontra
      exact hdots (by rw [← hmk, hcontra])
    have hb1 : decide (file.data = []) = false := decide_eq_false hne
    have hb2 : decide (file.data = ['.']) = false := decide_eq_false hd1
    simp [file_name, hsplit, List.filter, hb1, hb2, hd2, hmk]

/-- Witness for C7 amended at flags `L_STD ||| L_SHORT_FILE` (the crate's doc
example): the separator-free path `main.rs` is its own file token. -/
theorem c7_short_file_witness :
    (∃ pre : String,
      lgStdShort.header "t" "main.rs" 3 .Info ts0
        = pre
          ++ ((if lgStdShort.flag &&& L_LONG_FILE ≠ 0 then "t" ++ " " else "")
            ++ ((match file_name "main.rs" with | some base => base | none => "???")
              ++ (":" ++ (Nat.repr 3 ++ ": "))))
          ++ (if lgStdShort.flag &&& L_MSG_PFX ≠ 0 then lgStdShort.pfx else ""))
    ∧ file_name "main.rs" = some "main.rs" := by
  have h := c7_short_file lgStdShort "t" "main.rs" 3 .Info ts0 (by decide)
  exact ⟨h.1, h.2 (by decide) (by decide) (by decide) (by decide)⟩

/-- C8: every destination write failure inside `write_output` and every flush
failure inside `flush` is absorbed (the operation's observable result is
always `ok ()` regardless of the destination's behaviour), while the one-time
registration `init` is fallible: it returns an error exactly when a global
logger was already installed. -/
theorem c8_errors_absorbed :
    (∀ (lg : Logger) (dest : String → Except String Unit) level target file line s now,
        write_output_result lg dest level target file line s now = .ok ())
    ∧ (∀ r : Except String Unit, flush_result r = .ok ())
    ∧ init_result true = .error "SetLoggerError"
    ∧ init_result false = .ok () := by
  refine ⟨?_, ?_, rfl, rfl⟩
  · intro lg dest level target file line s now
    cases hw : lg.write_output level target file line s now with
    | none => simp [write_output_result, hw]
    | some bytes => cases hd : dest bytes <;> simp [write_output_result, hw, hd]
  · intro r
    cases r <;> rfl

/-- C10: with the threshold `LevelFilter::Off`, `enabled` is false at every
severity level and `write_output` writes nothing for every record. -/
theorem c10_level_off (lg : Logger) (hoff : lg.level = .Off) :
    ∀ (level : Level) target file line s now,
      lg.enabled level = false
      ∧ lg.write_output level target file line s now = none := by
  intro level target file line s now
  have hen : lg.enabled level = false := by
    cases level <;>
      simp [Logger.enabled, levelLeFilter, hoff, Level.toUsize, LevelFilter.toUsize]
  exact ⟨hen, by simp [Logger.write_output, hen]⟩

/-- Witness for C10 at a concrete record: even `Error` is rejected when the
threshold is `Off`. -/
theorem c10_level_off_witness :
    lgOff.enabled .Error = false
    ∧ lgOff.write_output .Error "t" none none "m" ts0 = none :=
  c10_level_off lgOff rfl .Error "t" none none "m" ts0

/-! ### C9: the interleaving model of concurrent emissions -/

theorem flatten_eq_nil_of_all_nil {α : Type} (l : List (List α))
    (h : ∀ t ∈ l, t = []) : l.flatten = [] := by
  induction l with
  | nil => rfl
  | cons hd tl ih =>
    have hhd : hd = [] := h hd (List.mem_cons_self hd tl)
    have htl := ih fun t ht => h t (List.mem_cons_of_mem hd ht)
    simp [hhd, htl]

theorem length_flatten_const {α : Type} (l : List (List α)) (M : Nat)
    (h : ∀ t ∈ l, t.length = M) : l.flatten.length = l.length * M := by
  induction l with
  | nil => simp
  | cons hd tl ih =>
    have hhd : hd.length = M := h hd (List.mem_cons_self hd tl)
    have htl := ih fun t ht => h t (List.mem_cons_of_mem hd ht)
    simp only [List.flatten_cons, List.length_append, List.length_cons, hhd, htl,
      Nat.succ_mul]
    omega

theorem sysInv_init (emit : String → String) (msgss : List (List String)) :
    SysInv emit (msgss.flatten.map emit) ⟨msgss, none, ""⟩ :=
  ⟨[], rfl, by simp [pendingChunks]⟩

theorem sysInv_step {emit : String → String} {allChunks : List String}
    {s s' : Sys} (hst : Step emit s s') (hinv : SysInv emit allChunks s) :
    SysInv emit allChunks s' := by
  obtain ⟨w, hout, hperm⟩ := hinv
  cases hst with
  | acquire t msg rest hh ht =>
    refine ⟨w, hout, ?_⟩
    have hmap := (flatten_set_perm s.threads t msg rest ht).map emit
    rw [hh] at hperm
    simp only [pendingChunks, List.append_nil] at hperm
    simp only [pendingChunks]
    refine List.Perm.trans ?_ hperm
    have h2 : ([emit msg] ++ (s.threads.set t rest).flatten.map emit).Perm
        (s.threads.flatten.map emit) := by simpa using hmap
    simpa [List.append_assoc] using List.Perm.append_left w h2
  | write t chunk hh =>
    refine ⟨w ++ [chunk], ?_, ?_⟩
    · show s.out ++ chunk = String.join (w ++ [chunk])
      rw [join_concat, hout]
    · rw [hh] at hperm
      simp only [pendingChunks, List.append_nil] at hperm ⊢
      simpa [List.append_assoc] using hperm
  | release t hh =>
    refine ⟨w, hout, ?_⟩
    rw [hh] at hperm
    simp only [pendingChunks, List.append_nil] at hperm ⊢
    exact hperm

theorem sysInv_reach {emit : String → String} {allChunks : List String}
    {s s' : Sys} (h : Relation.ReflTransGen (Step emit) s s')
    (hinv : SysInv emit allChunks s) : SysInv emit allChunks s' := by
  induction h with
  | refl => exact hinv
  | tail _ hstep ih => exact sysInv_step hstep ih

/-- C9: in the interleaving model of the guarded write path, any complete
execution in which N threads each emit M messages through the same logger
leaves the destination holding exactly the concatenation, in some order, of
the N×M complete lines (each one `header ++ message ++ conditional newline`,
intact — no torn or merged lines). -/
theorem c9_serialized_writes (lg : Logger) (level : Level) (target : String)
    (file : Option String) (line : Option Nat) (now : Timestamp)
    (msgss : List (List String)) (N M : Nat) (s : Sys)
    (hN : msgss.length = N) (hM : ∀ t ∈ msgss, t.length = M)
    (he : lg.enabled level = true)
    (htr : Relation.ReflTransGen (Step (emitLine lg level target file line now))
      ⟨msgss, none, ""⟩ s)
    (hholder : s.holder = none) (hdone : ∀ t ∈ s.threads, t = []) :
    ∃ w : List String,
      s.out = String.join w
      ∧ w.Perm (msgss.flatten.map (emitLine lg level target file line now))
      ∧ w.length = N * M
      ∧ ∀ x ∈ w, ∃ m ∈ msgss.flatten,
          x = lg.header target (file.getD "???") (line.getD 0) level now
              ++ m ++ (if ends_with_newline m then "" else "\n") := by
  have hinv := sysInv_reach htr
    (sysInv_init (emitLine lg level target file line now) msgss)
  obtain ⟨w, hout, hperm⟩ := hinv
  have hflat : s.threads.flatten = ([] : List String) :=
    flatten_eq_nil_of_all_nil s.threads hdone
  rw [hholder, hflat] at hperm
  simp only [pendingChunks, List.append_nil, List.map_nil] at hperm
  refine ⟨w, hout, hperm, ?_, ?_⟩
  · have hlen := hperm.length_eq
    rw [List.length_map] at hlen
    rw [hlen, length_flatten_const msgss M hM, hN]
  · intro x hx
    have hx2 : x ∈ msgss.flatten.map (emitLine lg level target file line now) :=
      hperm.subset hx
    obtain ⟨m, hm, hxm⟩ := List.mem_map.mp hx2
    refine ⟨m, hm, ?_⟩
    rw [← hxm]
    cases file <;> cases line <;> simp [emitLine, Logger.write_output, he]

/-- Witness for C9: two threads with one message each; one full execution of
the model leaves the destination holding exactly the two complete lines. -/
theorem c9_serialized_writes_witness :
    ∃ w : List String,
      ("a\nb\n" : String) = String.join w
      ∧ w.Perm ([["a"], ["b"]].flatten.map (emitLine lgPlain .Info "t" none none ts0))
      ∧ w.length = 2 * 1
      ∧ ∀ x ∈ w, ∃ m ∈ [["a"], ["b"]].flatten,
          x = lgPlain.header "t" ((none : Option String).getD "???")
              ((none : Option Nat).getD 0) .Info ts0
              ++ m ++ (if ends_with_newline m then "" else "\n") := by
  have htr : Relation.ReflTransGen (Step (emitLine lgPlain .Info "t" none none ts0))
      ⟨[["a"], ["b"]], none, ""⟩ ⟨[[], []], none, "a\nb\n"⟩ := by
    refine Relation.ReflTransGen.head (Step.acquire _ 0 "a" [] rfl (by decide)) ?_
    refine Relation.ReflTransGen.head (Step.write _ 0 _ rfl) ?_
    refine Relation.ReflTransGen.head (Step.release _ 0 rfl) ?_
    refine Relation.ReflTransGen.head (Step.acquire _ 1 "b" [] rfl (by decide)) ?_
    refine Relation.ReflTransGen.head (Step.write _ 1 _ rfl) ?_
    refine Relation.ReflTransGen.head (Step.release _ 1 rfl) ?_
    exact Relation.ReflTransGen.refl
  exact c9_serialized_writes lgPlain .Info "t" none none ts0 [["a"], ["b"]] 2 1
    ⟨[[], []], none, "a\nb\n"⟩ rfl (by decide) (by decide) htr rfl (by decide)

end Logosaurus
